import Mathlib

/-!
# Verification of the quote-resolution core (rate limiter, cache, dedup, fallback)

Shallow embedding of `backend/app/services/yahoo_finance.py` and
`backend/app/services/yahoo_finance_fallback.py` (plus the monitoring entry
point called from `backend/app/api/stocks.py`).

Modelling conventions:
* Python floats are modelled as rationals (`ℚ`); `round(x, 2)` is modelled by
  `round2` (round-half to an integer number of hundredths; the statements
  proved below never sit on a rounding tie, so the half-up/half-even
  difference between Lean's `round` and Python's float rounding is inert).
* Python dicts are modelled as functions `String → Option _`.
* Python exceptions that can escape a modelled function are modelled with
  `Except PyErr _`; internal exceptions that the source catches locally are
  folded into `Option`/branching, mirroring the source's `try/except` layout.
* Nondeterministic inputs (the yfinance network calls, `random.uniform`,
  `random.randint`) are passed in explicitly as oracle parameters.
-/

namespace YF

/-- Python exceptions that can escape the functions modelled here. -/
inductive PyErr where
  | zeroDivisionError
  | requestFailed
deriving DecidableEq, Repr

/-- `round(x, 2)`: round to two decimal places. -/
def round2 (q : ℚ) : ℚ := (round (q * 100) : ℤ) / 100

/-- Overwriting insert into a string-keyed dict. -/
def dictInsert {α : Type} (m : String → Option α) (k : String) (v : α) :
    String → Option α :=
  fun x => if x = k then some v else m x

/--
One stock-quote record (the dict built by the services).  The `isMock` field
models presence of the `"_is_mock"` key: `none` means the key is absent from
the dict, `some b` means the key is present with value `b`.  Keys irrelevant
to every claim (`currency`, `exchange`, `pe_ratio`, `dividend_yield`,
`52_week_high`, `52_week_low`) are omitted; dict entries that a given code
path does not set (e.g. `open` in the batch-download records) are modelled
as `0`.
-/
structure StockData where
  symbol : String
  companyName : String
  currentPrice : ℚ
  previousClose : ℚ
  openPrice : ℚ
  dayHigh : ℚ
  dayLow : ℚ
  volume : ℤ
  marketCap : ℚ
  priceChange : ℚ
  priceChangePercent : ℚ
  isMock : Option Bool
  lastUpdated : ℚ
deriving DecidableEq, Repr

/--
Outcome of reading `ticker.fast_info` attributes, with `safe_float`/`safe_int`
already applied (those helpers are total: any unusable value becomes the
default).  `lastPrice = none` models `not hasattr(fast_info, 'last_price')`
(so `current_price` stays `None`); `some q` models the `safe_float` result.
`prevClose = none` models the attribute being absent, in which case
`getattr(fast_info, 'previous_close', current_price)` yields `current_price`.
-/
structure FastInfo where
  lastPrice : Option ℚ
  prevClose : Option ℚ
  marketCap : ℚ
  lastVolume : ℤ
  name : Option String
deriving DecidableEq, Repr

/-- Outcome of the live Yahoo Finance fetch for one symbol:
`fail` = `yf.Ticker`/`fast_info` raised, `ok fi hist` = `fast_info` read
succeeded with attributes `fi`, and `hist` is `some c` when the 1-day
`ticker.history` retry would yield closing price `c` (`none` when that call
raises, or the frame is empty / lacks a `Close` column). -/
inductive LiveResult where
  | fail
  | ok (fi : FastInfo) (hist : Option ℚ)
deriving DecidableEq, Repr

/-- The draws of `random.uniform` / `random.randint` consumed by
`_get_mock_data`, passed in as an oracle. -/
structure MockRand where
  price : ℚ      -- random.uniform(50, 500), used when the symbol is not in the table
  change : ℚ     -- random.uniform(-5, 5), ditto
  variation : ℚ  -- random.uniform(-0.005, 0.005)
  openR : ℚ      -- random.uniform(0.99, 1.01)
  highR : ℚ      -- random.uniform(1.0, 1.02)
  lowR : ℚ       -- random.uniform(0.98, 1.0)
  volR : ℤ       -- random.randint(1000000, 50000000)
  capR : ℚ       -- random.uniform(1e9, 1e12)
deriving DecidableEq, Repr

/-- The oracle inputs consumed by one `get_stock_info_with_fallback` call:
the live-fetch outcome, the ±1% jitter draw of the last-known-good branch,
and the mock generator's random draws. -/
structure Env where
  fetch : LiveResult
  jitter : ℚ     -- random.uniform(-0.01, 0.01)
  mock : MockRand
deriving DecidableEq, Repr

/-- A default `Env` (used where the oracle stream runs dry; the stream is
always supplied long enough in the theorems below). -/
def defaultEnv : Env :=
  { fetch := .fail
    jitter := 0
    mock := { price := 100, change := 0, variation := 0, openR := 1,
              highR := 1, lowR := 1, volR := 1000000, capR := 1000000000 } }

/-- State of `YahooFinanceFallbackService`: the `last_successful_data` and
`permanent_cache` dicts.  `mock_data_enabled` is set in `__init__` but never
consulted by any code path, so it is carried verbatim. -/
structure FallbackState where
  lastSuccessfulData : String → Option StockData
  permanentCache : String → Option StockData
  mockDataEnabled : Bool

/-- The empty state built by `YahooFinanceFallbackService.__init__`. -/
def initFallbackState : FallbackState :=
  { lastSuccessfulData := fun _ => none
    permanentCache := fun _ => none
    mockDataEnabled := true }

/--
Strategy 1 of `get_stock_info_with_fallback` (the body of the inner `try`):
read `fast_info`, retry the price via 1-day history when the fast price is
`None` or `0`, raise (`none` here) when no nonzero price was found, and
otherwise build the data dict.  Note the source's truthiness test
`if not current_price or current_price == 0` lets a *negative* price through.
-/
def liveAttempt (symbol : String) (fi : FastInfo) (hist : Option ℚ) (now : ℚ) :
    Option StockData :=
  let cp0 : Option ℚ := fi.lastPrice
  let cp1 : Option ℚ :=
    if cp0 = none ∨ cp0 = some 0 then
      match hist with
      | some c => some c
      | none => cp0
    else cp0
  match cp1 with
  | none => none
  | some c =>
    if c = 0 then none
    else
      let p : ℚ := match fi.prevClose with | some q => q | none => c
      let chg : ℚ := if p > 0 then c - p else 0
      let pct : ℚ := if p > 0 then (c - p) / p * 100 else 0
      some
        { symbol := symbol
          companyName := match fi.name with
                         | some n => if n = "" then symbol else n
                         | none => symbol
          currentPrice := c
          previousClose := p
          openPrice := c                  -- data.get("open", current_price)
          dayHigh := c * (101 / 100)      -- current_price * 1.01
          dayLow := c * (99 / 100)        -- current_price * 0.99
          volume := fi.lastVolume
          marketCap := fi.marketCap
          priceChange := chg
          priceChangePercent := pct
          isMock := none                  -- the live dict has no "_is_mock" key
          lastUpdated := now }

/--
Strategy 2 of `get_stock_info_with_fallback`: jitter-refresh the
last-known-good record.  The source computes
`data["price_change_percent"] = (data["price_change"] / data["previous_close"]) * 100`
with no guard, so `previous_close == 0` (with a positive stored price)
raises `ZeroDivisionError`.
-/
def lkgRefresh (d0 : StockData) (jitter now : ℚ) : Except PyErr StockData :=
  if d0.currentPrice > 0 then
    let c := d0.currentPrice * (1 + jitter)
    if d0.previousClose = 0 then .error .zeroDivisionError
    else
      .ok { d0 with
              currentPrice := c
              priceChange := c - d0.previousClose
              priceChangePercent := (c - d0.previousClose) / d0.previousClose * 100
              lastUpdated := now }
  else .ok d0

/-- The curated `mock_prices` table of `_get_mock_data`:
symbol ↦ (price, name, change). -/
def mockPrices : List (String × ℚ × String × ℚ) :=
  [ ("AAPL", (19589/100, "Apple Inc.", 234/100)),
    ("GOOGL", (15534/100, "Alphabet Inc.", -123/100)),
    ("MSFT", (42985/100, "Microsoft Corporation", 345/100)),
    ("TSLA", (23845/100, "Tesla, Inc.", -567/100)),
    ("AMZN", (17832/100, "Amazon.com, Inc.", 189/100)),
    ("META", (52048/100, "Meta Platforms, Inc.", 432/100)),
    ("NVDA", (87528/100, "NVIDIA Corporation", 1245/100)),
    ("BRK.B", (41256/100, "Berkshire Hathaway Inc.", -234/100)),
    ("JPM", (19845/100, "JPMorgan Chase & Co.", 123/100)),
    ("JNJ", (15872/100, "Johnson & Johnson", -89/100)),
    ("V", (28413/100, "Visa Inc.", 256/100)),
    ("PG", (16789/100, "Procter & Gamble Co.", 45/100)),
    ("UNH", (52467/100, "UnitedHealth Group Inc.", -321/100)),
    ("HD", (38523/100, "The Home Depot, Inc.", 289/100)),
    ("MA", (47689/100, "Mastercard Incorporated", 367/100)),
    ("DIS", (9675/100, "The Walt Disney Company", -145/100)),
    ("BABA", (8345/100, "Alibaba Group Holding Limited", 123/100)),
    ("CHA", (5123/100, "China Telecom Corp Ltd", -45/100)),
    ("PDD", (11267/100, "PDD Holdings Inc.", 456/100)),
    ("^GSPC", (5000, "S&P 500", -4523/100)),
    ("^DJI", (38000, "Dow Jones Industrial Average", -23456/100)),
    ("^IXIC", (16000, "NASDAQ Composite", -12345/100)),
    ("^VIX", (15, "VIX Volatility Index", 34/100)) ]

/-- `_get_mock_data(symbol)`: synthesize a record.  Sets `"_is_mock": True`. -/
def mockData (symbol : String) (r : MockRand) (now : ℚ) : StockData :=
  let base : ℚ × String × ℚ :=
    match (mockPrices.find? (fun e => e.1 = symbol)) with
    | some e => e.2
    | none => (r.price, symbol ++ " Corporation", r.change)
  let price := base.1
  let change := base.2.2
  let previousClose := price - change
  let changePercent : ℚ :=
    if previousClose > 0 then change / previousClose * 100 else 0
  let currentPrice := price * (1 + r.variation)
  { symbol := symbol
    companyName := base.2.1
    currentPrice := round2 currentPrice
    previousClose := round2 previousClose
    openPrice := round2 (previousClose * r.openR)
    dayHigh := round2 (currentPrice * r.highR)
    dayLow := round2 (currentPrice * r.lowR)
    volume := r.volR
    marketCap := ⌊currentPrice * r.capR⌋
    priceChange := round2 change
    priceChangePercent := round2 changePercent
    isMock := some true
    lastUpdated := now }

/-- The outcome of strategy 1 (the whole outer `try` of
`get_stock_info_with_fallback`): `none` when any exception was raised and
swallowed, `some d` when the live dict `d` was built. -/
def liveOutcome (symbol : String) (env : Env) (now : ℚ) : Option StockData :=
  match env.fetch with
  | .fail => none
  | .ok fi hist => liveAttempt symbol fi hist now

/--
`YahooFinanceFallbackService.get_stock_info_with_fallback(symbol)`.
Strategy 1 (live fetch, storing into both dicts on success) → strategy 2
(last-known-good with jitter) → strategy 3 (permanent cache, timestamp
refreshed) → strategy 4 (mock).  Strategies 2–4 run outside any `try`, so a
`ZeroDivisionError` in strategy 2 escapes to the caller.
-/
def get_stock_info_with_fallback (st : FallbackState) (symbol : String)
    (env : Env) (now : ℚ) : Except PyErr (StockData × FallbackState) :=
  match liveOutcome symbol env now with
  | some d =>
    .ok (d, { st with
                lastSuccessfulData := dictInsert st.lastSuccessfulData symbol d
                permanentCache := dictInsert st.permanentCache symbol d })
  | none =>
    match st.lastSuccessfulData symbol with
    | some d0 => (lkgRefresh d0 env.jitter now).map (fun d => (d, st))
    | none =>
      match st.permanentCache symbol with
      | some d0 => .ok ({ d0 with lastUpdated := now }, st)
      | none => .ok (mockData symbol env.mock now, st)

/-! ## Multi-tier cache (`_get_from_cache` / `_set_cache`) -/

/-- A cache tier: key ↦ (value, timestamp). -/
def Cache (α : Type) : Type := String → Option (α × ℚ)

/--
`_get_from_cache(cache_dict, key, ttl)`: returns the stored value when the
entry's age is strictly below `ttl`; an expired entry is deleted (`del
cache_dict[key]`) and `None` returned.  The second component is the cache
dict after the call (the source mutates in place).
-/
def cacheGet {α : Type} (cache : Cache α) (key : String) (ttl now : ℚ) :
    Option α × Cache α :=
  match cache key with
  | none => (none, cache)
  | some (v, ts) =>
    if now - ts < ttl then (some v, cache)
    else (none, fun k => if k = key then none else cache k)

/-- `_set_cache(cache_dict, key, value)`: unconditional store with the
current timestamp. -/
def cacheSet {α : Type} (cache : Cache α) (key : String) (v : α) (now : ℚ) :
    Cache α :=
  fun k => if k = key then some (v, now) else cache k

/-! ## `YahooFinanceService` state and `get_stock_info` -/

/-- The cache TTLs fixed in `YahooFinanceService.__init__`. -/
def priceCacheTTL : ℚ := 30
def infoCacheTTL : ℚ := 300
def historicalCacheTTL : ℚ := 600

/-- State of `YahooFinanceService` relevant to the quote paths: the fallback
service's dicts and the price tier.  (The info/historical tiers and the rate
limiter's timestamp list are modelled separately where a claim needs them;
the return value of the quote paths never depends on them.) -/
structure ServiceState where
  fb : FallbackState
  priceCache : Cache StockData

/--
`YahooFinanceService.get_stock_info(symbol)` for one caller: price-tier
cache check (`if cached_data:` — record dicts are non-empty, hence truthy),
then the deduplicated fetch (`fetch_stock_data` = rate limit + fallback
resolve; with a single caller the dedup leader runs it exactly once), then
`_set_cache`.  The outer `except` returns `_get_mock_data(symbol)` without
caching.  The third component counts the invocations of `fetch_stock_data`
(each of which runs the rate limiter and the fallback chain).
-/
def get_stock_info (st : ServiceState) (symbol : String) (env : Env)
    (now : ℚ) : StockData × ServiceState × ℕ :=
  match cacheGet st.priceCache symbol priceCacheTTL now with
  | (some d, cache') => (d, { st with priceCache := cache' }, 0)
  | (none, cache') =>
    match get_stock_info_with_fallback st.fb symbol env now with
    | .ok (d, fb') =>
      (d, { fb := fb', priceCache := cacheSet cache' symbol d now }, 1)
    | .error _ =>
      (mockData symbol env.mock now, { st with priceCache := cache' }, 1)

/-! ## Batch quotes (`get_batch_quotes_optimized` / `get_multiple_stocks`) -/

/-- Per-symbol outcome of slicing the `yf.download` frame inside the batch
loop: `exc` = the per-symbol `try` body raised, `nodata` = `symbol_data` was
`None`, lacked a `Close` column, or its `Close` was empty (falls through
without raising), `ok close prev vol` = usable rows (`prev = none` models
`len(symbol_data) <= 1`, in which case `previous_close = current_price`;
`vol = none` models a missing `Volume` column, giving volume `0`). -/
inductive SymExtract where
  | exc
  | nodata
  | ok (close : ℚ) (prev : Option ℚ) (vol : Option ℤ)
deriving DecidableEq, Repr

/-- Outcome of the `yf.download` batch call: `failed` = the call raised or
returned a `None`/empty frame (the source then raises `ValueError`, caught
by the batch-level handler), `frame f` = a usable frame sliced per symbol. -/
inductive DlResult where
  | failed
  | frame (f : String → SymExtract)

/-- The data dict built for one symbol from the batch download frame.  This
dict has no `open`/`day_high`/`day_low`/`market_cap` keys (modelled `0`) and
no `"_is_mock"` key. -/
def batchRecord (symbol : String) (close : ℚ) (prev : Option ℚ)
    (vol : Option ℤ) (now : ℚ) : StockData :=
  let p : ℚ := match prev with | some q => q | none => close
  { symbol := symbol
    companyName := symbol
    currentPrice := round2 close
    previousClose := round2 p
    openPrice := 0
    dayHigh := 0
    dayLow := 0
    volume := match vol with | some v => v | none => 0
    marketCap := 0
    priceChange := round2 (close - p)
    priceChangePercent := round2 (if p > 0 then (close - p) / p * 100 else 0)
    isMock := none
    lastUpdated := now }

/--
The `for symbol in symbols` loop over the downloaded frame.  A symbol with
usable batch rows is appended and stored into `last_successful_data`
(`continue`); otherwise `get_stock_info_with_fallback` is called *outside*
the per-symbol `try`, so an exception from it aborts the loop (it is caught
by the batch-level `except ... as batch_error`, keeping the partial
`results`).  The `Bool` reports whether the loop was aborted.  `envs` is the
stream of fallback-call oracles, one consumed per resolver invocation.
-/
def batchLoop (fb : FallbackState) (f : String → SymExtract)
    (symbols : List String) (envs : List Env) (now : ℚ) :
    List StockData × FallbackState × List Env × Bool :=
  match symbols with
  | [] => ([], fb, envs, false)
  | sym :: rest =>
    match f sym with
    | .ok c p v =>
      let d := batchRecord sym c p v now
      let fb' := { fb with
                     lastSuccessfulData := dictInsert fb.lastSuccessfulData sym d }
      let r := batchLoop fb' f rest envs now
      (d :: r.1, r.2)
    | _ =>
      match get_stock_info_with_fallback fb sym (envs.headD defaultEnv) now with
      | .ok (d, fb') =>
        let r := batchLoop fb' f rest envs.tail now
        (d :: r.1, r.2)
      | .error _ => ([], fb, envs.tail, true)

/--
The trailing loop of `get_batch_quotes_optimized`: for every input symbol
not already present among `fetched_symbols`, append an individual
`get_stock_info_with_fallback` result.  This loop runs outside every `try`,
so a resolver exception escapes the whole function (first component
`.error`); state mutations made before the exception persist (second
component).
-/
def tailLoop (fb : FallbackState) (symbols : List String)
    (fetched : List String) (envs : List Env) (now : ℚ) :
    Except PyErr (List StockData) × FallbackState × List Env :=
  match symbols with
  | [] => (.ok [], fb, envs)
  | sym :: rest =>
    if sym ∈ fetched then tailLoop fb rest fetched envs now
    else
      match get_stock_info_with_fallback fb sym (envs.headD defaultEnv) now with
      | .error e => (.error e, fb, envs.tail)
      | .ok (d, fb') =>
        let r := tailLoop fb' rest fetched envs.tail now
        ((r.1.map (fun l => d :: l)), r.2)

/--
`YahooFinanceFallbackService.get_batch_quotes_optimized(symbols)`: the batch
download is attempted only for `len(symbols) <= 5`; any failure inside it is
caught at the batch level, keeping the partial `results`.  If fewer results
than symbols were collected, the trailing loop fills in the symbols not in
`fetched_symbols = {r['symbol'] for r in results}` (computed once).
-/
def get_batch_quotes_optimized (fb : FallbackState) (symbols : List String)
    (dl : DlResult) (envs : List Env) (now : ℚ) :
    Except PyErr (List StockData) × FallbackState × List Env :=
  let b : List StockData × FallbackState × List Env × Bool :=
    if symbols.length ≤ 5 then
      match dl with
      | .frame f => batchLoop fb f symbols envs now
      | .failed => ([], fb, envs, false)
    else ([], fb, envs, false)
  let results := b.1
  let fb1 := b.2.1
  let envs1 := b.2.2.1
  if results.length < symbols.length then
    let fetched := results.map (fun r => r.symbol)
    let t := tailLoop fb1 symbols fetched envs1 now
    ((t.1.map (fun l => results ++ l)), t.2)
  else (.ok results, fb1, envs1)

/-- The `except` branch of `get_multiple_stocks`: one `get_stock_info` per
symbol (itself total — its own `except` returns mock data). -/
def individualLoop (st : ServiceState) (symbols : List String)
    (envs : List Env) (now : ℚ) : List StockData × ServiceState :=
  match symbols with
  | [] => ([], st)
  | sym :: rest =>
    let r := get_stock_info st sym (envs.headD defaultEnv) now
    let rec' := individualLoop r.2.1 rest envs.tail now
    (r.1 :: rec'.1, rec'.2)

/--
`YahooFinanceService.get_multiple_stocks(symbols)`: delegate to
`get_batch_quotes_optimized`; if that raises, fall back to per-symbol
`get_stock_info` calls (the fallback-service state mutated before the
exception persists on the shared singleton).
-/
def get_multiple_stocks (st : ServiceState) (symbols : List String)
    (dl : DlResult) (envs : List Env) (now : ℚ) :
    List StockData × ServiceState :=
  match get_batch_quotes_optimized st.fb symbols dl envs now with
  | (.ok res, fb', _) => (res, { st with fb := fb' })
  | (.error _, fb', envs') => individualLoop { st with fb := fb' } symbols envs' now

/-! ## Sliding-window rate limiter (`_wait_for_rate_limit`)

`self.rate_limit = 30`, `self.time_window = 60`.  Each evaluation of the
body prunes `self.request_times` to the trailing window; if the pruned list
has reached the quota it sleeps and re-evaluates (recursing) without
recording anything, otherwise it appends the current time (admission).
`RLReach now hist times` relates the service's lifetime: `hist` is the full
sequence of admitted call timestamps, `times` the `request_times` list, and
`now` the time of the latest evaluation (time only moves forward). -/

/-- `[t for t in self.request_times if current_time - t < self.time_window]`. -/
def prune (now : ℚ) (ts : List ℚ) : List ℚ :=
  ts.filter (fun t => decide (now - t < 60))

/-- Reachable rate-limiter states.  `grant` is an evaluation that finds the
pruned list under quota and appends `now'` (an admission); `defer` is an evaluation that
prunes (and, when at quota, sleeps — recording nothing). -/
inductive RLReach : ℚ → List ℚ → List ℚ → Prop where
  | init (now : ℚ) : RLReach now [] []
  | grant {now : ℚ} {hist ts : List ℚ} (now' : ℚ) (h : RLReach now hist ts)
      (hmono : now ≤ now') (hq : (prune now' ts).length < 30) :
      RLReach now' (hist ++ [now']) (prune now' ts ++ [now'])
  | defer {now : ℚ} {hist ts : List ℚ} (now' : ℚ) (h : RLReach now hist ts)
      (hmono : now ≤ now') :
      RLReach now' hist (prune now' ts)

/-! ## In-flight request deduplicator (`_deduplicate_request`)

Modelled for one fixed key.  `threading.Event` objects are identified by
numeric ids; `==` on two `Event`s is reference equality, so it holds exactly
when the ids coincide.  A caller's interaction splits into the two phases of
the source: the locked section (install-or-read the event), and the
unlocked leader test `key in self.pending_requests and
self.pending_requests[key] == event` followed by either executing
`request_func` or waiting. -/

/-- Deduplicator state for a single key, plus an execution counter for
`request_func` and a fresh-event supply. -/
structure DedupState where
  pendingRequests : Option ℕ        -- self.pending_requests.get(key): event id
  requestResults : Option (Bool × ℕ)  -- self.request_results.get(key): (status=='success', value)
  execCount : ℕ                     -- number of times request_func has run
  nextEvent : ℕ
deriving DecidableEq, Repr

/-- The state before any caller arrives. -/
def dedupInit : DedupState :=
  { pendingRequests := none, requestResults := none, execCount := 0, nextEvent := 0 }

/-- The `with self.request_lock:` section: read the key's event if present,
else install a fresh one.  Returns the event id this caller holds. -/
def dedupLockPhase (st : DedupState) : DedupState × ℕ :=
  match st.pendingRequests with
  | some e => (st, e)
  | none =>
    ({ st with pendingRequests := some st.nextEvent, nextEvent := st.nextEvent + 1 },
     st.nextEvent)

/-- `if key in self.pending_requests and self.pending_requests[key] == event:`. -/
def dedupLeaderTest (st : DedupState) (ev : ℕ) : Bool :=
  st.pendingRequests = some ev

/-- The unlocked continuation of one caller holding event `ev`: when the
leader test passes, run `request_func` (its value supplied by the oracle
`opResult`) and publish the result; otherwise wait on the event and read the
published result.  (Entry cleanup is scheduled 5 time-units later by a
`threading.Timer` and has not fired in the traces considered.) -/
def dedupCheckPhase (st : DedupState) (ev : ℕ) (opResult : ℕ) : DedupState :=
  if dedupLeaderTest st ev then
    { st with execCount := st.execCount + 1, requestResults := some (true, opResult) }
  else st

/-- Two callers for the same key, both passing the locked section before
either completes (the archetypal concurrent arrival; the same interleaving
also arises sequentially inside the 5-time-unit cleanup grace period). -/
def dedupTwoCallers (r1 r2 : ℕ) : DedupState :=
  let p1 := dedupLockPhase dedupInit
  let p2 := dedupLockPhase p1.1
  let st3 := dedupCheckPhase p2.1 p1.2 r1
  dedupCheckPhase st3 p2.2 r2

/-! ## Mock history (`_generate_mock_history`) -/

/-- The slice of a Python `datetime` this module observes: calendar day and
the time within the day (seconds).  `timedelta(days=k)` subtraction leaves
the time of day untouched. -/
structure PyDate where
  day : ℤ
  secs : ℤ
deriving DecidableEq, Repr

/-- `str(date.date())` — depends on the calendar day only. -/
def dateStr (d : PyDate) : String := toString d.day

/-- `str(date)` / `date.isoformat()` — carries the full timestamp (injective
in `(day, secs)`). -/
def datetimeStr (d : PyDate) : String := toString d.day ++ "T" ++ toString d.secs

/-- `date - timedelta(days=n)`. -/
def subDays (d : PyDate) (n : ℕ) : PyDate := ⟨d.day - n, d.secs⟩

/-- One generated OHLCV point. -/
structure HistPoint where
  date : String
  openP : ℚ
  highP : ℚ
  lowP : ℚ
  closeP : ℚ
  volume : ℕ
deriving DecidableEq, Repr

/-- `num_points = 30 if period == "1mo" else 7`. -/
def numPoints (period : String) : ℕ := if period = "1mo" then 30 else 7

/-- The body of the generation loop for index `i`.  `pyhash` models Python's
per-process `hash` on strings; `%` on a negative hash with positive modulus
agrees between Python and `Int.emod`.  `basePrice` is
`self.get_stock_info(symbol).get('current_price', 100)`, supplied by the
caller. -/
def mockHistPoint (symbol : String) (pyhash : String → ℤ) (basePrice : ℚ)
    (np : ℕ) (now : PyDate) (i : ℕ) : HistPoint :=
  let date := subDays now (np - i)
  let variation : ℚ := 1 + ((i : ℚ) - (np : ℚ) / 2) * (2 / 1000)
  let dailyVar : ℚ := 1 + ((pyhash (symbol ++ dateStr date) % 100 - 50 : ℤ) : ℚ) / 1000
  let price := basePrice * variation * dailyVar
  { date := datetimeStr date
    openP := round2 (price * (995 / 1000))
    highP := round2 (price * (101 / 100))
    lowP := round2 (price * (99 / 100))
    closeP := round2 price
    volume := (pyhash (symbol ++ datetimeStr date)).natAbs % 10000000 }

/-- The list of points synthesized by `_generate_mock_history`. -/
def generate_mock_history (symbol period : String) (pyhash : String → ℤ)
    (basePrice : ℚ) (now : PyDate) : List HistPoint :=
  (List.range (numPoints period)).map
    (mockHistPoint symbol pyhash basePrice (numPoints period) now)

/-- The OHLC price fields of a point (the fields whose noise is seeded from
symbol + calendar date only). -/
def priceFields (p : HistPoint) : ℚ × ℚ × ℚ × ℚ :=
  (p.openP, p.highP, p.lowP, p.closeP)

/-! ## Price monitoring (`start_price_monitoring`) -/

/-- One monitoring subscription (symbol ↦ this, at most one per symbol). -/
structure MonitorSubscription where
  intervalSeconds : ℚ
  thresholdPercent : ℚ
  callbackId : ℕ
deriving DecidableEq, Repr

/-- The alert payload handed to the caller-owned callback. -/
structure AlertPayload where
  symbol : String
  currentPrice : ℚ
  previousClose : ℚ
  change : ℚ
  changePercent : ℚ
  threshold : ℚ
  timestamp : ℚ
deriving DecidableEq, Repr

/-- Modelled from the spec: `YahooFinanceService.start_price_monitoring` is
invoked from `backend/app/api/stocks.py` (`/monitoring/start`) but its
definition is absent from the source tree.  Per spec §4.5 it cancels any
existing subscription for the symbol and installs the new one (atomic
replacement, so at most one loop per symbol). -/
def start_price_monitoring (subs : String → Option MonitorSubscription)
    (symbol : String) (sub : MonitorSubscription) :
    String → Option MonitorSubscription :=
  fun k => if k = symbol then some sub else subs k

/-- Modelled from the spec: one poll-cycle check of the monitoring loop —
fetch a fresh record via `get_quote` and invoke the callback with an alert
payload exactly when `price_change_percent ≤ -threshold_percent`. -/
def monitorCheck (sub : MonitorSubscription) (d : StockData) (now : ℚ) :
    Option AlertPayload :=
  if d.priceChangePercent ≤ -sub.thresholdPercent then
    some { symbol := d.symbol
           currentPrice := d.currentPrice
           previousClose := d.previousClose
           change := d.priceChange
           changePercent := d.priceChangePercent
           threshold := sub.thresholdPercent
           timestamp := now }
  else none

/-- Modelled from the spec: the callback invocations produced by the
periodic loop over a sequence of polled records (each paired with its poll
time); a fetch error inside the loop is logged and skipped, never ending the
loop. -/
def monitorRun (sub : MonitorSubscription) (polls : List (StockData × ℚ)) :
    List AlertPayload :=
  polls.filterMap (fun q => monitorCheck sub q.1 q.2)

/-! ## State predicates used by the theorems -/

/-- No record stored in `last_successful_data` or `permanent_cache` carries
the `"_is_mock"` key (the services only ever store live/batch dicts there). -/
def NoMockFlagStored (fb : FallbackState) : Prop :=
  (∀ k d, fb.lastSuccessfulData k = some d → d.isMock = none) ∧
  (∀ k d, fb.permanentCache k = some d → d.isMock = none)

/-- Every record stored in the fallback dicts sits under its own symbol. -/
def SymbolKeyed (fb : FallbackState) : Prop :=
  (∀ k d, fb.lastSuccessfulData k = some d → d.symbol = k) ∧
  (∀ k d, fb.permanentCache k = some d → d.symbol = k)

/-- `SymbolKeyed` extended to the service's price tier. -/
def SvcSymbolKeyed (st : ServiceState) : Prop :=
  SymbolKeyed st.fb ∧ ∀ k d t, st.priceCache k = some (d, t) → d.symbol = k

/-! ## Concrete fixtures for counterexamples and witnesses -/

/-- A record with positive price and `previous_close = 0`, exactly what the
live path stores when `fast_info.previous_close` is present but `None`
(`safe_float(None) = 0.0` with `current_price = 100`). -/
def zeroPrevFixture (sym : String) : StockData :=
  { symbol := sym, companyName := sym, currentPrice := 100,
    previousClose := 0, openPrice := 100, dayHigh := 101, dayLow := 99,
    volume := 1000, marketCap := 0, priceChange := 0,
    priceChangePercent := 0, isMock := none, lastUpdated := 0 }

/-- A well-formed last-known-good record. -/
def lkgFixture : StockData :=
  { symbol := "AAPL", companyName := "Apple Inc.", currentPrice := 100,
    previousClose := 50, openPrice := 100, dayHigh := 101, dayLow := 99,
    volume := 1000, marketCap := 0, priceChange := 50,
    priceChangePercent := 100, isMock := none, lastUpdated := 0 }

/-- The record `lkgRefresh lkgFixture 0 5` produces. -/
def lkgFixtureOut : StockData :=
  { lkgFixture with
      currentPrice := 100 * (1 + 0)
      priceChange := 100 * (1 + 0) - 50
      priceChangePercent := (100 * (1 + 0) - 50) / 50 * 100
      lastUpdated := 5 }

/-- Fast-info attributes of a plain successful live fetch. -/
def fiFixture : FastInfo :=
  { lastPrice := some 100, prevClose := some 99, marketCap := 0,
    lastVolume := 0, name := none }

/-- An `Env` whose live fetch succeeds with `fiFixture`. -/
def envOkFixture : Env := { defaultEnv with fetch := .ok fiFixture none }

/-- Mock-generator draws with intraday variation `0.004`. -/
def mockRandFixture : MockRand :=
  { price := 100, change := 0, variation := 1/250, openR := 1, highR := 1,
    lowR := 1, volR := 1000000, capR := 1000000000 }

/-- A fallback state whose `last_successful_data` holds `zeroPrevFixture`
for the given symbol. -/
def zeroPrevState (sym : String) : FallbackState :=
  { initFallbackState with
      lastSuccessfulData := dictInsert (fun _ => none) sym (zeroPrevFixture sym) }

/-! # Theorems -/

/--
C1: the claim states `get_stock_info_with_fallback` never raises.  The code
raises: when the live fetch fails and `last_successful_data[symbol]` holds a
record with a positive `current_price` and `previous_close == 0` (exactly
what strategy 1 stores when `fast_info.previous_close` is `None`, since
`safe_float(None) = 0.0`), strategy 2 evaluates
`data["price_change"] / data["previous_close"]` and a `ZeroDivisionError`
escapes — strategies 2–4 run outside every `try`.
-/
theorem fallback_resolver_raises_zero_division :
    get_stock_info_with_fallback (zeroPrevState "AAPL") "AAPL" defaultEnv 10
      = .error .zeroDivisionError := by
  rfl

/--
C2: the claim states that of N concurrent callers of
`_deduplicate_request(key, op)` only the first executes `op`.  In the code
both the first caller and every waiter hold the *same* event object (the
waiter reads it out of `self.pending_requests`), so the supposed leader test
`key in self.pending_requests and self.pending_requests[key] == event`
succeeds for every caller and each of them runs `request_func`: with two
callers interleaving lock-section, lock-section, check, check — the
canonical concurrent arrival — the operation executes twice, not once.
-/
theorem dedup_executes_operation_per_caller (r1 r2 : ℕ) :
    (dedupTwoCallers r1 r2).execCount = 2 := by
  rfl

/--
C3 counterexample: the mock record for `AAPL` with intraday variation draw
`0.004` has `price_change = 2.34` (the table's base change) but
`current_price − previous_close = 196.67 − 193.55 = 3.12`: the synthesized
path does not satisfy the derived-field equation.
-/
theorem mock_derived_fields_counterexample :
    ¬ ((mockData "AAPL" mockRandFixture 0).priceChange
        = (mockData "AAPL" mockRandFixture 0).currentPrice
          - (mockData "AAPL" mockRandFixture 0).previousClose) := by
  simp only [mockData, mockRandFixture, mockPrices, List.find?, round2]
  norm_num [round_eq]

/--
C3 (amended): the derived-field equations hold for the records built by the
live-fetch path (with both derived fields `0` when `previous_close ≤ 0`) and
for the jitter-refreshed last-known-good records; the synthesized mock
record's `price_change` is the base change, which the intraday variation
decouples from `current_price − previous_close`.
-/
theorem quote_derived_field_equations :
    (∀ (symbol : String) (fi : FastInfo) (hist : Option ℚ) (now : ℚ)
        (d : StockData), liveAttempt symbol fi hist now = some d →
        (0 < d.previousClose →
            d.priceChange = d.currentPrice - d.previousClose ∧
            d.priceChangePercent
              = (d.currentPrice - d.previousClose) / d.previousClose * 100) ∧
        (¬ 0 < d.previousClose → d.priceChange = 0 ∧ d.priceChangePercent = 0)) ∧
    (∀ (d0 : StockData) (jitter now : ℚ) (d : StockData),
        0 < d0.currentPrice → lkgRefresh d0 jitter now = .ok d →
        d.priceChange = d.currentPrice - d.previousClose ∧
        d.priceChangePercent
          = (d.currentPrice - d.previousClose) / d.previousClose * 100) := by
  constructor
  · intro symbol fi hist now d h
    simp only [liveAttempt] at h
    split at h
    · exact absurd h (by simp)
    · rename_i c heq
      split at h
      · exact absurd h (by simp)
      · rename_i hc
        injection h with h
        subst h
        constructor
        · intro hp
          simp only at hp ⊢
          rw [if_pos hp, if_pos hp]
          exact ⟨rfl, rfl⟩
        · intro hp
          simp only at hp ⊢
          rw [if_neg hp, if_neg hp]
          exact ⟨rfl, rfl⟩
  · intro d0 jitter now d hcp h
    unfold lkgRefresh at h
    rw [if_pos hcp] at h
    split at h
    · exact absurd h (by simp)
    · injection h with h
      subst h
      exact ⟨rfl, rfl⟩

/-- Witness for `quote_derived_field_equations` at a concrete
last-known-good refresh. -/
theorem quote_derived_field_equations_witness :
    lkgFixtureOut.priceChange
      = lkgFixtureOut.currentPrice - lkgFixtureOut.previousClose ∧
    lkgFixtureOut.priceChangePercent
      = (lkgFixtureOut.currentPrice - lkgFixtureOut.previousClose)
        / lkgFixtureOut.previousClose * 100 :=
  quote_derived_field_equations.2 lkgFixture 0 5 lkgFixtureOut (by norm_num [lkgFixture]) rfl

/-! ### Shared helper lemmas -/

/-- The live-fetch dict never carries the `"_is_mock"` key. -/
theorem liveAttempt_isMock {symbol : String} {fi : FastInfo} {hist : Option ℚ}
    {now : ℚ} {d : StockData} (h : liveAttempt symbol fi hist now = some d) :
    d.isMock = none := by
  simp only [liveAttempt] at h
  split at h
  · exact absurd h (by simp)
  · split at h
    · exact absurd h (by simp)
    · injection h with h
      subst h
      rfl

/-- The live dict is keyed by the requested symbol. -/
theorem liveAttempt_symbol {symbol : String} {fi : FastInfo} {hist : Option ℚ}
    {now : ℚ} {d : StockData} (h : liveAttempt symbol fi hist now = some d) :
    d.symbol = symbol := by
  simp only [liveAttempt] at h
  split at h
  · exact absurd h (by simp)
  · split at h
    · exact absurd h (by simp)
    · injection h with h
      subst h
      rfl

/-- `liveOutcome` versions of the two lemmas above. -/
theorem liveOutcome_isMock {symbol : String} {env : Env} {now : ℚ}
    {d : StockData} (h : liveOutcome symbol env now = some d) :
    d.isMock = none := by
  unfold liveOutcome at h
  split at h
  · exact absurd h (by simp)
  · exact liveAttempt_isMock h

theorem liveOutcome_symbol {symbol : String} {env : Env} {now : ℚ}
    {d : StockData} (h : liveOutcome symbol env now = some d) :
    d.symbol = symbol := by
  unfold liveOutcome at h
  split at h
  · exact absurd h (by simp)
  · exact liveAttempt_symbol h

/-- The jitter refresh keeps the `"_is_mock"` key absence and the symbol. -/
theorem lkgRefresh_fields {d0 : StockData} {jitter now : ℚ} {d : StockData}
    (h : lkgRefresh d0 jitter now = .ok d) :
    d.isMock = d0.isMock ∧ d.symbol = d0.symbol := by
  unfold lkgRefresh at h
  split at h
  · split at h
    · exact absurd h (by simp)
    · injection h with h
      subst h
      exact ⟨rfl, rfl⟩
  · injection h with h
    subst h
    exact ⟨rfl, rfl⟩

/-- The mock record flags itself and is keyed by the requested symbol. -/
theorem mockData_fields (symbol : String) (r : MockRand) (now : ℚ) :
    (mockData symbol r now).isMock = some true ∧
    (mockData symbol r now).symbol = symbol := ⟨rfl, rfl⟩

/-- Filtering through an if-guarded `filterMap` keeps exactly the elements
satisfying the guard. -/
theorem length_filterMap_ite {β γ : Type} (p : β → Prop) [DecidablePred p]
    (g : β → γ) (l : List β) :
    (l.filterMap (fun b => if p b then some (g b) else none)).length
      = l.countP (fun b => decide (p b)) := by
  induction l with
  | nil => rfl
  | cons a t ih =>
    by_cases h : p a
    · simp [List.filterMap_cons, h, List.countP_cons, ih]
    · simp [List.filterMap_cons, h, List.countP_cons, ih]

/--
C7: `_get_from_cache` returns the stored value iff an unexpired entry
exists, deletes an expired entry and returns `None`, and `_set_cache`
unconditionally overwrites with the current timestamp.
-/
theorem cache_tier_contract :
    ∀ (α : Type),
      (∀ (cache : Cache α) (key : String) (ttl now : ℚ) (v : α),
          (cacheGet cache key ttl now).1 = some v
            ↔ ∃ ts, cache key = some (v, ts) ∧ now - ts < ttl) ∧
      (∀ (cache : Cache α) (key : String) (ttl now : ℚ) (v : α) (ts : ℚ),
          cache key = some (v, ts) → ¬ now - ts < ttl →
          (cacheGet cache key ttl now).1 = none ∧
          (cacheGet cache key ttl now).2 key = none ∧
          ∀ k, k ≠ key → (cacheGet cache key ttl now).2 k = cache k) ∧
      (∀ (cache : Cache α) (key : String) (v : α) (now : ℚ),
          cacheSet cache key v now key = some (v, now) ∧
          ∀ k, k ≠ key → cacheSet cache key v now k = cache k) := by
  intro α
  refine ⟨?_, ?_, ?_⟩
  · intro cache key ttl now v
    unfold cacheGet
    constructor
    · intro h
      split at h
      · exact absurd h (by simp)
      · rename_i p heq
        split at h
        · rename_i hlt
          simp only [Option.some.injEq] at h
          exact ⟨p, by rw [heq, ← h], hlt⟩
        · exact absurd h (by simp)
    · rintro ⟨ts, hk, hlt⟩
      rw [hk]
      simp [hlt]
  · intro cache key ttl now v ts hk hlt
    unfold cacheGet
    rw [hk]
    refine ⟨by simp [hlt], by simp [hlt], ?_⟩
    intro k hkk
    simp [hlt, hkk]
  · intro cache key v now
    refine ⟨by simp [cacheSet], ?_⟩
    intro k hkk
    simp [cacheSet, hkk]

/-- Witness for `cache_tier_contract`: an expired `ℕ`-valued entry is
removed and `None` returned. -/
theorem cache_tier_contract_witness :
    (cacheGet (fun k => if k = "AAPL" then some (7, 0) else none) "AAPL" 30 50).1
      = none ∧
    (cacheGet (fun k => if k = "AAPL" then some (7, 0) else none) "AAPL" 30 50).2
      "AAPL" = none ∧
    ∀ k, k ≠ "AAPL" →
      (cacheGet (fun k => if k = "AAPL" then some ((7 : ℕ), (0 : ℚ)) else none)
        "AAPL" 30 50).2 k
        = (fun k => if k = "AAPL" then some (7, 0) else none) k :=
  (cache_tier_contract ℕ).2.1 (fun k => if k = "AAPL" then some (7, 0) else none)
    "AAPL" 30 50 7 0 (by simp) (by norm_num)

/--
C10: only the synthesized-mock path marks provenance.  `_get_mock_data`
sets `"_is_mock": True`; the live dict has no such key; and whenever the
resolver returns through the live, last-known-good, or permanent-cache
strategy (given that the stored records carry no flag, which the stores
preserve), the returned record has no `"_is_mock"` key; the key appears
(with value `True`) exactly on the mock path.
-/
theorem mock_flag_provenance :
    (∀ (symbol : String) (r : MockRand) (now : ℚ),
        (mockData symbol r now).isMock = some true) ∧
    (∀ (symbol : String) (fi : FastInfo) (hist : Option ℚ) (now : ℚ)
        (d : StockData), liveAttempt symbol fi hist now = some d →
        d.isMock = none) ∧
    (∀ (fb : FallbackState) (symbol : String) (env : Env) (now : ℚ)
        (d : StockData) (fb' : FallbackState), NoMockFlagStored fb →
        get_stock_info_with_fallback fb symbol env now = .ok (d, fb') →
        ((liveOutcome symbol env now ≠ none ∨ fb.lastSuccessfulData symbol ≠ none
            ∨ fb.permanentCache symbol ≠ none) → d.isMock = none) ∧
        ((liveOutcome symbol env now = none ∧ fb.lastSuccessfulData symbol = none
            ∧ fb.permanentCache symbol = none) → d.isMock = some true) ∧
        NoMockFlagStored fb') := by
  refine ⟨fun _ _ _ => rfl, fun _ _ _ _ _ h => liveAttempt_isMock h, ?_⟩
  intro fb symbol env now d fb' hnm hok
  unfold get_stock_info_with_fallback at hok
  cases hl : liveOutcome symbol env now with
  | some dl =>
    rw [hl] at hok
    injection hok with hok
    injection hok with hd hfb
    subst hd
    subst hfb
    refine ⟨fun _ => liveOutcome_isMock hl, ?_, ?_, ?_⟩
    · rintro ⟨h0, -, -⟩
      exact absurd h0 (by simp)
    · intro k d'' hk
      simp only [dictInsert] at hk
      split at hk
      · injection hk with hk
        subst hk
        exact liveOutcome_isMock hl
      · exact hnm.1 k d'' hk
    · intro k d'' hk
      simp only [dictInsert] at hk
      split at hk
      · injection hk with hk
        subst hk
        exact liveOutcome_isMock hl
      · exact hnm.2 k d'' hk
  | none =>
    rw [hl] at hok
    dsimp only at hok
    cases hlk : fb.lastSuccessfulData symbol with
    | some d0 =>
      rw [hlk] at hok
      dsimp only at hok
      cases hr : lkgRefresh d0 env.jitter now with
      | error e =>
        rw [hr] at hok
        exact absurd hok (by simp [Except.map])
      | ok d1 =>
        rw [hr] at hok
        simp only [Except.map] at hok
        injection hok with hok
        injection hok with hd hfb
        subst hd
        subst hfb
        refine ⟨fun _ => ?_, ?_, hnm⟩
        · rw [(lkgRefresh_fields hr).1]
          exact hnm.1 symbol d0 hlk
        · rintro ⟨-, h0, -⟩
          exact absurd h0 (by simp)
    | none =>
      rw [hlk] at hok
      dsimp only at hok
      cases hpc : fb.permanentCache symbol with
      | some d0 =>
        rw [hpc] at hok
        dsimp only at hok
        injection hok with hok
        injection hok with hd hfb
        subst hd
        subst hfb
        refine ⟨fun _ => hnm.2 symbol d0 hpc, ?_, hnm⟩
        rintro ⟨-, -, h0⟩
        exact absurd h0 (by simp)
      | none =>
        rw [hpc] at hok
        dsimp only at hok
        injection hok with hok
        injection hok with hd hfb
        subst hd
        subst hfb
        refine ⟨?_, fun _ => rfl, hnm⟩
        rintro (h0 | h0 | h0) <;> exact absurd rfl h0

/-- Witness for `mock_flag_provenance`: a fully cold start for an unknown
symbol resolves through the mock path with the flag set. -/
theorem mock_flag_provenance_witness :
    (liveOutcome "ZZZZ" defaultEnv 0 = none ∧
        initFallbackState.lastSuccessfulData "ZZZZ" = none ∧
        initFallbackState.permanentCache "ZZZZ" = none) →
      ((mockData "ZZZZ" defaultEnv.mock 0).isMock = some true) := by
  intro h
  exact ((mock_flag_provenance.2.2 initFallbackState "ZZZZ" defaultEnv 0
    (mockData "ZZZZ" defaultEnv.mock 0) initFallbackState
    ⟨fun _ _ hk => by exact absurd hk (by simp [initFallbackState]),
     fun _ _ hk => by exact absurd hk (by simp [initFallbackState])⟩ rfl).2.1) h

/--
C9: `start_price_monitoring` replaces (cancelling) any existing
subscription for the symbol, and the periodic loop's check invokes the
callback exactly on records whose `price_change_percent` is at most
`-threshold_percent`, and never otherwise.  (spec-modelled: the monitoring
methods are invoked from `app/api/stocks.py` but absent from the source
tree; modelled from spec §4.5.)
-/
theorem monitoring_replace_and_threshold :
    (∀ (subs : String → Option MonitorSubscription) (symbol : String)
        (sub : MonitorSubscription),
        start_price_monitoring subs symbol sub symbol = some sub ∧
        ∀ k, k ≠ symbol → start_price_monitoring subs symbol sub k = subs k) ∧
    (∀ (sub : MonitorSubscription) (d : StockData) (now : ℚ),
        (monitorCheck sub d now).isSome
          ↔ d.priceChangePercent ≤ -sub.thresholdPercent) ∧
    (∀ (sub : MonitorSubscription) (polls : List (StockData × ℚ)),
        (monitorRun sub polls).length
          = polls.countP
              (fun q => decide (q.1.priceChangePercent ≤ -sub.thresholdPercent))) := by
  refine ⟨?_, ?_, ?_⟩
  · intro subs symbol sub
    refine ⟨by simp [start_price_monitoring], ?_⟩
    intro k hk
    simp [start_price_monitoring, hk]
  · intro sub d now
    unfold monitorCheck
    split
    · rename_i hc
      simpa using hc
    · rename_i hc
      simpa using hc
  · intro sub polls
    have h := length_filterMap_ite
      (fun q : StockData × ℚ => q.1.priceChangePercent ≤ -sub.thresholdPercent)
      (fun q => { symbol := q.1.symbol, currentPrice := q.1.currentPrice,
                  previousClose := q.1.previousClose, change := q.1.priceChange,
                  changePercent := q.1.priceChangePercent,
                  threshold := sub.thresholdPercent,
                  timestamp := q.2 : AlertPayload }) polls
    simpa [monitorRun, monitorCheck] using h

/-- Witness for `monitoring_replace_and_threshold`: replacing a
subscription leaves unrelated symbols untouched. -/
theorem monitoring_replace_and_threshold_witness :
    start_price_monitoring (fun _ => none) "AAPL"
      { intervalSeconds := 1, thresholdPercent := 5, callbackId := 0 } "MSFT"
      = none :=
  (monitoring_replace_and_threshold.1 (fun _ => none) "AAPL"
    { intervalSeconds := 1, thresholdPercent := 5, callbackId := 0 }).2
    "MSFT" (by decide)

/--
C6: two `get_stock_info` calls for the same symbol within the 30-unit
price-tier TTL of a first successful resolution issue exactly one
`fetch_stock_data` invocation (and with it one pass through the rate
limiter, deduplicator and fallback chain): the first call fetches once and
caches, the second returns the cached record with fetch count `0` and the
state unchanged.
-/
theorem price_cache_single_fetch (st : ServiceState) (symbol : String)
    (env1 env2 : Env) (t1 t2 : ℚ) (p : StockData × FallbackState)
    (hmiss : st.priceCache symbol = none)
    (hok : get_stock_info_with_fallback st.fb symbol env1 t1 = .ok p)
    (httl : t2 - t1 < 30) :
    (get_stock_info st symbol env1 t1).2.2 = 1 ∧
    get_stock_info (get_stock_info st symbol env1 t1).2.1 symbol env2 t2
      = ((get_stock_info st symbol env1 t1).1,
         (get_stock_info st symbol env1 t1).2.1, 0) := by
  obtain ⟨d1, fb1⟩ := p
  have h1 : get_stock_info st symbol env1 t1
      = (d1, ⟨fb1, cacheSet st.priceCache symbol d1 t1⟩, 1) := by
    unfold get_stock_info
    rw [show cacheGet st.priceCache symbol priceCacheTTL t1
        = (none, st.priceCache) from by unfold cacheGet; rw [hmiss]]
    rw [hok]
  have h2 : cacheGet (cacheSet st.priceCache symbol d1 t1) symbol
      priceCacheTTL t2 = (some d1, cacheSet st.priceCache symbol d1 t1) := by
    unfold cacheGet cacheSet
    simp [priceCacheTTL, httl]
  refine ⟨by rw [h1], ?_⟩
  rw [h1]
  unfold get_stock_info
  rw [h2]

/-- Witness for `price_cache_single_fetch`: a cold start for `ZZZZ`
resolving through the mock path at `t = 0`, re-queried at `t = 10`. -/
theorem price_cache_single_fetch_witness :
    (get_stock_info ⟨initFallbackState, fun _ => none⟩ "ZZZZ" defaultEnv 0).2.2
      = 1 ∧
    get_stock_info
        (get_stock_info ⟨initFallbackState, fun _ => none⟩ "ZZZZ" defaultEnv 0).2.1
        "ZZZZ" defaultEnv 10
      = ((get_stock_info ⟨initFallbackState, fun _ => none⟩ "ZZZZ" defaultEnv 0).1,
         (get_stock_info ⟨initFallbackState, fun _ => none⟩ "ZZZZ" defaultEnv 0).2.1,
         0) :=
  price_cache_single_fetch ⟨initFallbackState, fun _ => none⟩ "ZZZZ"
    defaultEnv defaultEnv 0 10 (mockData "ZZZZ" defaultEnv.mock 0, initFallbackState)
    rfl rfl (by norm_num)

/-- Re-pruning at a later time subsumes an earlier pruning. -/
theorem filter_window_mono {now now' : ℚ} (hmono : now ≤ now') (hist : List ℚ) :
    (hist.filter (fun t => decide (now - t < 60))).filter
        (fun t => decide (now' - t < 60))
      = hist.filter (fun t => decide (now' - t < 60)) := by
  rw [List.filter_filter]
  apply List.filter_congr
  intro t ht
  by_cases hc : now' - t < 60
  · have h2 : now - t < 60 := by linarith
    simp [hc, h2]
  · simp [hc]

/-- Invariant of the rate-limiter state: the timestamps are bounded by the
latest evaluation time and `request_times` is exactly the admitted history
restricted to the trailing window. -/
theorem rl_invariant {now : ℚ} {hist ts : List ℚ} (h : RLReach now hist ts) :
    (∀ t ∈ hist, t ≤ now) ∧
    ts = hist.filter (fun t => decide (now - t < 60)) := by
  induction h with
  | init now => exact ⟨by simp, rfl⟩
  | @grant now0 hist0 ts0 now' h hmono hq ih =>
    obtain ⟨hle, hts⟩ := ih
    have hpr : prune now' ts0
        = hist0.filter (fun t => decide (now' - t < 60)) := by
      rw [hts]
      unfold prune
      exact filter_window_mono hmono hist0
    constructor
    · intro t ht
      rcases List.mem_append.mp ht with h1 | h1
      · exact le_trans (hle t h1) hmono
      · rw [List.mem_singleton.mp h1]
    · rw [List.filter_append, hpr]
      congr 1
      have h0 : now' - now' < 60 := by norm_num
      simp [h0]
  | @defer now0 hist0 ts0 now' h hmono ih =>
    obtain ⟨hle, hts⟩ := ih
    refine ⟨fun t ht => le_trans (hle t ht) hmono, ?_⟩
    rw [hts]
    unfold prune
    exact filter_window_mono hmono hist0

/--
C5: in every reachable rate-limiter execution, at most 30 calls are admitted
within any trailing 60-unit window: each evaluation prunes the timestamp
list to the trailing window, admits (appending the current time) only while
the pruned count is below the quota, and otherwise re-evaluates after
waiting without recording anything.
-/
theorem rate_limiter_window_bound {now : ℚ} {hist ts : List ℚ}
    (h : RLReach now hist ts) (T : ℚ) :
    hist.countP (fun t => decide (T - 60 < t ∧ t ≤ T)) ≤ 30 := by
  induction h with
  | init now => simp
  | @grant now0 hist0 ts0 now' h hmono hq ih =>
    rw [List.countP_append]
    by_cases hc : T - 60 < now' ∧ now' ≤ T
    · have hpr : (prune now' ts0).length
          = hist0.countP (fun t => decide (now' - t < 60)) := by
        rw [show prune now' ts0
            = hist0.filter (fun t => decide (now' - t < 60)) from by
          rw [(rl_invariant h).2]
          unfold prune
          exact filter_window_mono hmono hist0]
        exact (List.countP_eq_length_filter _ _).symm
      have hmono2 : hist0.countP (fun t => decide (T - 60 < t ∧ t ≤ T))
          ≤ hist0.countP (fun t => decide (now' - t < 60)) := by
        apply List.countP_mono_left
        intro a ha hp
        simp only [decide_eq_true_eq] at hp ⊢
        obtain ⟨h1, h2⟩ := hp
        linarith [hc.2]
      have hq' : hist0.countP (fun t => decide (now' - t < 60)) < 30 := by
        rw [← hpr]
        exact hq
      have hone : List.countP (fun t => decide (T - 60 < t ∧ t ≤ T)) [now'] = 1 := by
        simp [List.countP_cons, hc]
      omega
    · have hzero : List.countP (fun t => decide (T - 60 < t ∧ t ≤ T)) [now'] = 0 := by
        simp [List.countP_cons, hc]
      omega
  | @defer now0 hist0 ts0 now' h hmono ih => exact ih

/-- Witness for `rate_limiter_window_bound`: one admission at time `0`,
window ending at `T = 0`. -/
theorem rate_limiter_window_bound_witness :
    (([] : List ℚ) ++ [0]).countP
        (fun t => decide ((0 : ℚ) - 60 < t ∧ t ≤ 0)) ≤ 30 :=
  rate_limiter_window_bound
    (RLReach.grant 0 (RLReach.init 0) le_rfl (by simp [prune])) 0

/--
C8 counterexample: two synthesis runs one second apart on the same calendar
day (same symbol, period, base price and in-process hash) do not produce
identical points — every point's `Date` field (and the `Volume` hash input)
embeds the full fetch timestamp `datetime.now()`, not just the date.
-/
theorem mock_history_rerun_counterexample :
    generate_mock_history "AAPL" "1d" (fun _ => 0) 100 ⟨20000, 0⟩
      ≠ generate_mock_history "AAPL" "1d" (fun _ => 0) 100 ⟨20000, 1⟩ := by
  intro h
  have hdate : (generate_mock_history "AAPL" "1d" (fun _ => 0) 100
        ⟨20000, 0⟩).head?.map (fun p => p.date)
      ≠ (generate_mock_history "AAPL" "1d" (fun _ => 0) 100
          ⟨20000, 1⟩).head?.map (fun p => p.date) := by decide
  exact hdate (congrArg (fun l => l.head?.map (fun p => p.date)) h)

/--
C8 (amended): the daily pseudo-random noise of the *price* fields is seeded
from symbol + calendar date only, so two synthesis runs on the same day
(with the same base price and in-process hash function) produce identical
Open/High/Low/Close sequences; the `Date` and `Volume` fields, however,
embed the full fetch timestamp, so the complete points differ between runs.
-/
theorem mock_history_price_determinism (symbol period : String)
    (pyhash : String → ℤ) (base : ℚ) (now1 now2 : PyDate)
    (hday : now1.day = now2.day) :
    (generate_mock_history symbol period pyhash base now1).map priceFields
      = (generate_mock_history symbol period pyhash base now2).map priceFields := by
  unfold generate_mock_history
  rw [List.map_map, List.map_map]
  have hfun : (priceFields ∘ mockHistPoint symbol pyhash base (numPoints period) now1)
      = (priceFields ∘ mockHistPoint symbol pyhash base (numPoints period) now2) := by
    funext i
    simp [priceFields, mockHistPoint, dateStr, subDays, hday]
  rw [hfun]

/-- Witness for `mock_history_price_determinism` at the counterexample's
inputs: the price sequences of the two runs coincide even though the full
points differ. -/
theorem mock_history_price_determinism_witness :
    (generate_mock_history "AAPL" "1d" (fun _ => 0) 100 ⟨20000, 0⟩).map priceFields
      = (generate_mock_history "AAPL" "1d" (fun _ => 0) 100 ⟨20000, 1⟩).map
          priceFields :=
  mock_history_price_determinism "AAPL" "1d" (fun _ => 0) 100
    ⟨20000, 0⟩ ⟨20000, 1⟩ rfl

/--
C4 counterexample: with duplicated input symbols, `get_multiple_stocks` can
return fewer records than symbols.  Input `["AAPL", "MSFT", "AAPL"]`: the
batch frame covers `AAPL`; `MSFT` has no batch rows, and its in-loop
individual fallback raises `ZeroDivisionError` (last-known-good entry with
`previous_close == 0`), aborting the batch loop after one result.  The
trailing loop then skips *both* `AAPL` occurrences (it filters on the set
`fetched_symbols`, computed once) and appends a single `MSFT` record whose
retried fetch succeeds: 2 records for 3 symbols, with no exception
surfacing.
-/
theorem batch_duplicate_symbol_drop_counterexample :
    (get_multiple_stocks ⟨zeroPrevState "MSFT", fun _ => none⟩
        ["AAPL", "MSFT", "AAPL"]
        (.frame (fun s => if s = "AAPL" then .ok 195 (some 190) (some 1000000)
                          else .nodata))
        [defaultEnv, envOkFixture] 0).1.length = 2 ∧
    (["AAPL", "MSFT", "AAPL"] : List String).length = 3 :=
  ⟨rfl, rfl⟩

/-! ### Helper lemmas for the amended batch-order theorem -/

/-- An entry surviving `_get_from_cache` was present beforehand. -/
theorem cacheGet_entries {α : Type} (c : Cache α) (k : String) (ttl now : ℚ)
    {k' : String} {p : α × ℚ} (h : (cacheGet c k ttl now).2 k' = some p) :
    c k' = some p := by
  unfold cacheGet at h
  split at h
  · exact h
  · split at h
    · exact h
    · simp only at h
      split at h
      · exact absurd h (by simp)
      · exact h

/-- A `_get_from_cache` hit returns a previously stored value. -/
theorem cacheGet_hit {α : Type} {c : Cache α} {k : String} {ttl now : ℚ}
    {v : α} (h : (cacheGet c k ttl now).1 = some v) :
    ∃ ts, c k = some (v, ts) := by
  unfold cacheGet at h
  split at h
  · exact absurd h (by simp)
  · rename_i p heq
    split at h
    · simp only [Option.some.injEq] at h
      exact ⟨p, by rw [heq, ← h]⟩
    · exact absurd h (by simp)

/-- A resolver success returns a record for the requested symbol and keeps
the fallback dicts symbol-keyed. -/
theorem resolver_symbol_ok {fb : FallbackState} {symbol : String} {env : Env}
    {now : ℚ} {d : StockData} {fb' : FallbackState}
    (hwf : SymbolKeyed fb)
    (hok : get_stock_info_with_fallback fb symbol env now = .ok (d, fb')) :
    d.symbol = symbol ∧ SymbolKeyed fb' := by
  unfold get_stock_info_with_fallback at hok
  cases hl : liveOutcome symbol env now with
  | some dl =>
    rw [hl] at hok
    injection hok with hok
    injection hok with hd hfb
    subst hd
    subst hfb
    refine ⟨liveOutcome_symbol hl, ?_, ?_⟩
    · intro k d'' hk
      simp only [dictInsert] at hk
      split at hk
      · rename_i hke
        injection hk with hk
        subst hk
        rw [hke]
        exact liveOutcome_symbol hl
      · exact hwf.1 k d'' hk
    · intro k d'' hk
      simp only [dictInsert] at hk
      split at hk
      · rename_i hke
        injection hk with hk
        subst hk
        rw [hke]
        exact liveOutcome_symbol hl
      · exact hwf.2 k d'' hk
  | none =>
    rw [hl] at hok
    dsimp only at hok
    cases hlk : fb.lastSuccessfulData symbol with
    | some d0 =>
      rw [hlk] at hok
      dsimp only at hok
      cases hr : lkgRefresh d0 env.jitter now with
      | error e =>
        rw [hr] at hok
        exact absurd hok (by simp [Except.map])
      | ok d1 =>
        rw [hr] at hok
        simp only [Except.map] at hok
        injection hok with hok
        injection hok with hd hfb
        subst hd
        subst hfb
        refine ⟨?_, hwf⟩
        rw [(lkgRefresh_fields hr).2]
        exact hwf.1 symbol d0 hlk
    | none =>
      rw [hlk] at hok
      dsimp only at hok
      cases hpc : fb.permanentCache symbol with
      | some d0 =>
        rw [hpc] at hok
        dsimp only at hok
        injection hok with hok
        injection hok with hd hfb
        subst hd
        subst hfb
        exact ⟨hwf.2 symbol d0 hpc, hwf⟩
      | none =>
        rw [hpc] at hok
        dsimp only at hok
        injection hok with hok
        injection hok with hd hfb
        subst hd
        subst hfb
        exact ⟨rfl, hwf⟩

/-- `get_stock_info` returns a record for the requested symbol and
preserves symbol-keyedness of the whole service state. -/
theorem get_stock_info_symbol (st : ServiceState) (symbol : String)
    (env : Env) (now : ℚ) (hwf : SvcSymbolKeyed st) :
    (get_stock_info st symbol env now).1.symbol = symbol ∧
    SvcSymbolKeyed (get_stock_info st symbol env now).2.1 := by
  unfold get_stock_info
  rcases hcg : cacheGet st.priceCache symbol priceCacheTTL now with ⟨o, cache'⟩
  have hent : ∀ k' p, cache' k' = some p → st.priceCache k' = some p := by
    intro k' p hp
    exact cacheGet_entries st.priceCache symbol priceCacheTTL now
      (by rw [hcg]; exact hp)
  cases o with
  | some d =>
    dsimp only
    obtain ⟨ts, hts⟩ := cacheGet_hit (show (cacheGet st.priceCache symbol
      priceCacheTTL now).1 = some d from by rw [hcg])
    exact ⟨hwf.2 symbol d ts hts,
           hwf.1, fun k' d' t' h => hwf.2 k' d' t' (hent k' (d', t') h)⟩
  | none =>
    dsimp only
    cases hr : get_stock_info_with_fallback st.fb symbol env now with
    | ok p =>
      obtain ⟨d1, fb1⟩ := p
      obtain ⟨hd, hkeyed⟩ := resolver_symbol_ok hwf.1 hr
      refine ⟨hd, hkeyed, ?_⟩
      intro k' d' t' h
      simp only [cacheSet] at h
      split at h
      · rename_i hke
        injection h with h
        injection h with h1 h2
        subst h1
        rw [hke]
        exact hd
      · exact hwf.2 k' d' t' (hent k' (d', t') h)
    | error e =>
      exact ⟨rfl, hwf.1, fun k' d' t' h => hwf.2 k' d' t' (hent k' (d', t') h)⟩

/-- Storing a record under its own symbol in `last_successful_data`
preserves symbol-keyedness. -/
theorem insert_symbolKeyed {fb : FallbackState} (sym : String) (d : StockData)
    (hwf : SymbolKeyed fb) (hd : d.symbol = sym) :
    SymbolKeyed { fb with
      lastSuccessfulData := dictInsert fb.lastSuccessfulData sym d } := by
  refine ⟨?_, hwf.2⟩
  intro k d'' hk
  simp only [dictInsert] at hk
  split at hk
  · rename_i hke
    injection hk with hk
    subst hk
    rw [hke]
    exact hd
  · exact hwf.1 k d'' hk

/-- The batch-download record is keyed by its symbol. -/
theorem batchRecord_symbol (symbol : String) (close : ℚ) (prev : Option ℚ)
    (vol : Option ℤ) (now : ℚ) :
    (batchRecord symbol close prev vol now).symbol = symbol := rfl

/-- The batch loop produces, in order, records for a prefix of the input
symbols (the whole input when it was not aborted by a resolver exception),
and keeps the state symbol-keyed. -/
theorem batchLoop_take {fb : FallbackState} {f : String → SymExtract}
    (symbols : List String) (envs : List Env) (now : ℚ)
    (hwf : SymbolKeyed fb) :
    ∃ k, (batchLoop fb f symbols envs now).1.map (fun r => r.symbol)
            = symbols.take k ∧
         SymbolKeyed (batchLoop fb f symbols envs now).2.1 ∧
         ((batchLoop fb f symbols envs now).2.2.2 = false →
            (batchLoop fb f symbols envs now).1.map (fun r => r.symbol)
              = symbols) := by
  induction symbols generalizing fb envs with
  | nil => exact ⟨0, by simp [batchLoop], hwf, fun _ => by simp [batchLoop]⟩
  | cons sym rest ih =>
    simp only [batchLoop]
    cases hf : f sym with
    | ok c p v =>
      dsimp only
      obtain ⟨k, h1, h2, h3⟩ :=
        ih envs (insert_symbolKeyed sym (batchRecord sym c p v now) hwf rfl)
      exact ⟨k + 1, by simp [h1, List.take_succ_cons, batchRecord_symbol], h2,
             fun hesc => by simp [h3 hesc, batchRecord_symbol]⟩
    | exc =>
      dsimp only
      cases hr : get_stock_info_with_fallback fb sym (envs.headD defaultEnv) now with
      | ok q =>
        obtain ⟨d, fb2⟩ := q
        obtain ⟨hd, hkeyed⟩ := resolver_symbol_ok hwf hr
        obtain ⟨k, h1, h2, h3⟩ := ih envs.tail hkeyed
        exact ⟨k + 1, by simp [h1, List.take_succ_cons, hd], h2,
               fun hesc => by simp [h3 hesc, hd]⟩
      | error e =>
        exact ⟨0, by simp, hwf, fun hesc => by simp at hesc⟩
    | nodata =>
      dsimp only
      cases hr : get_stock_info_with_fallback fb sym (envs.headD defaultEnv) now with
      | ok q =>
        obtain ⟨d, fb2⟩ := q
        obtain ⟨hd, hkeyed⟩ := resolver_symbol_ok hwf hr
        obtain ⟨k, h1, h2, h3⟩ := ih envs.tail hkeyed
        exact ⟨k + 1, by simp [h1, List.take_succ_cons, hd], h2,
               fun hesc => by simp [h3 hesc, hd]⟩
      | error e =>
        exact ⟨0, by simp, hwf, fun hesc => by simp at hesc⟩

/-- The trailing loop, when it completes without raising, returns (in input
order) exactly one record per input symbol not in `fetched`, and keeps the
state symbol-keyed either way. -/
theorem tailLoop_filter {fb : FallbackState} (symbols : List String)
    (fetched : List String) (envs : List Env) (now : ℚ)
    (hwf : SymbolKeyed fb) :
    (∀ res, (tailLoop fb symbols fetched envs now).1 = .ok res →
        res.map (fun r => r.symbol)
          = symbols.filter (fun s => decide (s ∉ fetched))) ∧
    SymbolKeyed (tailLoop fb symbols fetched envs now).2.1 := by
  induction symbols generalizing fb envs with
  | nil =>
    refine ⟨?_, hwf⟩
    intro res h
    simp only [tailLoop] at h
    injection h with h
    subst h
    rfl
  | cons sym rest ih =>
    simp only [tailLoop]
    by_cases hm : sym ∈ fetched
    · rw [if_pos hm]
      obtain ⟨h1, h2⟩ := ih envs hwf
      refine ⟨?_, h2⟩
      intro res h
      rw [h1 res h]
      simp [hm]
    · rw [if_neg hm]
      cases hr : get_stock_info_with_fallback fb sym (envs.headD defaultEnv) now with
      | error e =>
        refine ⟨?_, hwf⟩
        intro res h
        exact absurd h (by simp)
      | ok q =>
        obtain ⟨d, fb2⟩ := q
        obtain ⟨hd, hkeyed⟩ := resolver_symbol_ok hwf hr
        obtain ⟨h1, h2⟩ := ih envs.tail hkeyed
        refine ⟨?_, h2⟩
        intro res h
        dsimp only at h
        cases hr1 : (tailLoop fb2 rest fetched envs.tail now).1 with
        | error e => rw [hr1] at h; exact absurd h (by simp [Except.map])
        | ok res2 =>
          rw [hr1] at h
          simp only [Except.map] at h
          injection h with h
          subst h
          simp [h1 res2 hr1, hm, hd]

/-- With `Nodup` symbols, the batch prefix plus the trailing fill-in
reassembles the input list. -/
theorem take_filter_not_mem {l : List String} (hn : l.Nodup) (k : ℕ) :
    l.take k ++ l.filter (fun s => decide (s ∉ l.take k)) = l := by
  induction l generalizing k with
  | nil => simp
  | cons a t ih =>
    have ha : a ∉ t := (List.nodup_cons.mp hn).1
    have ht : t.Nodup := (List.nodup_cons.mp hn).2
    cases k with
    | zero =>
      simp only [List.take_zero, List.nil_append]
      have : ∀ s ∈ a :: t, (decide (s ∉ ([] : List String)) = true) := by simp
      simp
    | succ n =>
      simp only [List.take_succ_cons, List.cons_append]
      have hfilter : (a :: t).filter (fun s => decide (s ∉ a :: t.take n))
          = t.filter (fun s => decide (s ∉ t.take n)) := by
        rw [List.filter_cons]
        have hfa : (decide (a ∉ a :: t.take n)) = false := by simp
        rw [hfa]
        simp only [Bool.false_eq_true, if_false]
        apply List.filter_congr
        intro s hs
        have hsa : s ≠ a := fun he => ha (he ▸ hs)
        simp [hsa]
      rw [hfilter]
      rw [ih ht n]

/-- `get_batch_quotes_optimized` on `Nodup` symbols: a non-raising run
returns exactly one record per symbol in input order; the state stays
symbol-keyed either way. -/
theorem get_batch_symbols {fb : FallbackState} (symbols : List String)
    (dl : DlResult) (envs : List Env) (now : ℚ)
    (hwf : SymbolKeyed fb) (hn : symbols.Nodup) :
    (∀ res, (get_batch_quotes_optimized fb symbols dl envs now).1 = .ok res →
        res.map (fun r => r.symbol) = symbols) ∧
    SymbolKeyed (get_batch_quotes_optimized fb symbols dl envs now).2.1 := by
  obtain ⟨k, hk1, hk2⟩ : ∃ k,
      (if symbols.length ≤ 5 then
          match dl with
          | .frame f => batchLoop fb f symbols envs now
          | .failed => ([], fb, envs, false)
        else ([], fb, envs, false)).1.map (fun r => r.symbol)
        = symbols.take k ∧
      SymbolKeyed (if symbols.length ≤ 5 then
          match dl with
          | .frame f => batchLoop fb f symbols envs now
          | .failed => ([], fb, envs, false)
        else ([], fb, envs, false)).2.1 := by
    split
    · cases dl with
      | frame f =>
        obtain ⟨k, h1, h2, h3⟩ := batchLoop_take symbols envs now hwf
        exact ⟨k, h1, h2⟩
      | failed => exact ⟨0, by simp, hwf⟩
    · exact ⟨0, by simp, hwf⟩
  unfold get_batch_quotes_optimized
  dsimp only
  generalize hbb : (if symbols.length ≤ 5 then
      match dl with
      | .frame f => batchLoop fb f symbols envs now
      | .failed => ([], fb, envs, false)
    else ([], fb, envs, false)) = bb at hk1 hk2 ⊢
  obtain ⟨results, fb1, envs1, esc⟩ := bb
  dsimp only at hk1 hk2 ⊢
  split
  · rename_i hlt
    obtain ⟨ht1, ht2⟩ := tailLoop_filter symbols
      (results.map (fun r => r.symbol)) envs1 now hk2
    refine ⟨?_, ht2⟩
    intro res h
    dsimp only at h
    cases hto : (tailLoop fb1 symbols (results.map (fun r => r.symbol))
        envs1 now).1 with
    | error e => rw [hto] at h; exact absurd h (by simp [Except.map])
    | ok res2 =>
      rw [hto] at h
      simp only [Except.map] at h
      injection h with h
      subst h
      rw [List.map_append, ht1 res2 hto, hk1]
      exact take_filter_not_mem hn k
  · rename_i hlt
    refine ⟨?_, hk2⟩
    intro res h
    dsimp only at h
    injection h with h
    subst h
    have hlen : symbols.length ≤ results.length := Nat.le_of_not_lt hlt
    have h2 : results.length = (symbols.take k).length := by
      rw [← hk1, List.length_map]
    rw [List.length_take] at h2
    have hk3 : symbols.length ≤ k := by omega
    rw [hk1, List.take_of_length_le hk3]

/-- The per-symbol fallback loop of `get_multiple_stocks` returns one
record per symbol in input order. -/
theorem individualLoop_symbols {st : ServiceState} (symbols : List String)
    (envs : List Env) (now : ℚ) (hwf : SvcSymbolKeyed st) :
    (individualLoop st symbols envs now).1.map (fun r => r.symbol)
      = symbols := by
  induction symbols generalizing st envs with
  | nil => rfl
  | cons sym rest ih =>
    simp only [individualLoop]
    obtain ⟨h1, h2⟩ :=
      get_stock_info_symbol st sym (envs.headD defaultEnv) now hwf
    simp only [List.map_cons, List.cons.injEq]
    exact ⟨h1, ih envs.tail h2⟩

/--
C4 (amended): for every list of *pairwise-distinct* symbols,
`get_multiple_stocks` returns exactly one record per input symbol, in input
order (given the stored records are keyed by their own symbols, as all
stores guarantee), even when live fetches fail and fall through to mock
data.  The distinctness proviso is forced by the counterexample: a
mid-batch `ZeroDivisionError` plus a duplicated symbol makes the trailing
loop drop the duplicate.
-/
theorem batch_order_and_count (st : ServiceState) (symbols : List String)
    (dl : DlResult) (envs : List Env) (now : ℚ)
    (hn : symbols.Nodup) (hwf : SvcSymbolKeyed st) :
    (get_multiple_stocks st symbols dl envs now).1.map (fun r => r.symbol)
        = symbols ∧
    (get_multiple_stocks st symbols dl envs now).1.length
        = symbols.length := by
  have hmain : (get_multiple_stocks st symbols dl envs now).1.map
      (fun r => r.symbol) = symbols := by
    obtain ⟨hb1, hb2⟩ := get_batch_symbols symbols dl envs now hwf.1 hn
    unfold get_multiple_stocks
    rcases hb : get_batch_quotes_optimized st.fb symbols dl envs now
      with ⟨r1, fb', envs'⟩
    cases r1 with
    | ok res =>
      dsimp only
      exact hb1 res (by rw [hb])
    | error e =>
      dsimp only
      apply individualLoop_symbols
      refine ⟨?_, hwf.2⟩
      have hb2' := hb2
      rw [hb] at hb2'
      exact hb2'
  exact ⟨hmain, by simpa using congrArg List.length hmain⟩

/-- Witness for `batch_order_and_count`: a cold start, failed batch
download, two distinct symbols. -/
theorem batch_order_and_count_witness :
    (get_multiple_stocks ⟨initFallbackState, fun _ => none⟩ ["AAPL", "MSFT"]
        DlResult.failed [] 0).1.map (fun r => r.symbol) = ["AAPL", "MSFT"] ∧
    (get_multiple_stocks ⟨initFallbackState, fun _ => none⟩ ["AAPL", "MSFT"]
        DlResult.failed [] 0).1.length
      = (["AAPL", "MSFT"] : List String).length :=
  batch_order_and_count ⟨initFallbackState, fun _ => none⟩ ["AAPL", "MSFT"]
    DlResult.failed [] 0 (by decide)
    ⟨⟨fun _ _ hk => absurd hk (by simp [initFallbackState]),
      fun _ _ hk => absurd hk (by simp [initFallbackState])⟩,
     fun _ _ _ hk => absurd hk (by simp)⟩

end YF
